import Mathlib

/-!
Verification development for the F1-NEXUS Monte Carlo race simulator.

The definitions below are a shallow embedding of the TypeScript sources:

* `runPrediction` and its helpers embed
  `f1-predictor-full/lib/prediction.ts` (the seeded main engine);
* `reliabilityAmplifierOptimized` embeds the amplifier computed by
  `runPredictionOptimized` in `lib/prediction-optimized.ts`;
* `xs32Step`, `orNext`, `orStream`, `orFindNonzero` embed the
  `OptimizedRandom` class of `lib/prediction-optimized.ts` with the
  ECMAScript number-to-int32 coercions made explicit;
* `mb32Next`, `mbTape`, `randomNormalConsume`, `driverDrawsPT` embed the
  `mulberry32` generator and the RNG-consumption order of
  `randomNormal` plus the reliability draw in `prediction.ts`;
* `targetMatches`, `applyFactor`, `applyQualRel` embed the variation
  applicator of the simulation store (`runSimulation`).

JavaScript numbers are modelled as exact rationals (`ℚ`).  The two
transcendental steps of the Box-Muller transform cannot be represented
exactly in ℚ, so the per-(run, driver) standard-normal value and the
reliability uniform are supplied by an abstract `DrawOracle`; for a
numeric seed both streams are functions of the seed alone, so a fixed
oracle models a fixed seed.  `Array.prototype.sort` with a comparator is
modelled by a stable insertion sort (`jsStableSort`), which agrees with
any ECMAScript-compliant stable sort for a total comparator.
-/

namespace F1Nexus

/-- Clamp for rationals, embedding the clamp helper of prediction.ts
(Math.min(Math.max(value, min), max)). -/
def clampQ (value lo hi : ℚ) : ℚ := min (max value lo) hi

/-- Clamp on integers, used for the runs count after Math.round. -/
def clampZ (value lo hi : ℤ) : ℤ := min (max value lo) hi

/-- ECMAScript Math.round: round half toward positive infinity. -/
def jsRound (q : ℚ) : ℤ := ⌊q + 1/2⌋

/-- Track profile enumeration from prediction.ts. -/
inductive TrackProfile
  | balanced
  | power
  | technical
deriving DecidableEq, Repr

/-- Weather enumeration from prediction.ts. -/
inductive WeatherProfile
  | dry
  | mixed
  | wet
deriving DecidableEq, Repr

/-- Tyre stress enumeration from prediction.ts. -/
inductive TyreStress
  | low
  | medium
  | high
deriving DecidableEq, Repr

/-- Safety car enumeration from prediction.ts. -/
inductive SafetyCarProfile
  | low
  | medium
  | high
deriving DecidableEq, Repr

/-- RaceContext from prediction.ts. -/
structure RaceContext where
  trackProfile : TrackProfile
  weather : WeatherProfile
  tyreStress : TyreStress
  safetyCar : SafetyCarProfile
  runs : ℚ
  randomness : ℚ
  seed : Option ℤ := none
deriving DecidableEq, Repr

/-- DriverMetrics from lib/driver-data.ts (the numeric fields consumed by
the engine). -/
structure DriverMetrics where
  id : String
  code : String
  name : String
  team : String
  gridPosition : ℚ
  qualyGapMs : ℚ
  longRunPaceDelta : ℚ
  straightlineIndex : ℚ
  corneringIndex : ℚ
  speedTrapKph : ℚ
  pitStopMedian : ℚ
  dnfRate : ℚ
  wetSkill : ℚ
  consistency : ℚ
  tyreManagement : ℚ
  aggression : ℚ
  experience : ℚ
deriving DecidableEq, Repr

/-- DriverSimulationInput = DriverMetrics and an optional isActive flag. -/
structure DriverSimulationInput extends DriverMetrics where
  isActive : Option Bool := none
deriving DecidableEq, Repr

/-- DriverSimulationResult from prediction.ts. -/
structure DriverSimulationResult where
  id : String
  name : String
  team : String
  code : String
  winProbability : ℚ
  podiumProbability : ℚ
  averageFinish : ℚ
  expectedPoints : ℚ
  dnfProbability : ℚ
  bestFinish : ℤ
  worstFinish : ℤ
  consistencyIndex : ℚ
deriving DecidableEq, Repr

/-- SimulationSummary from prediction.ts; the id field carries Date.now(),
modelled as an integer parameter of the run. -/
structure SimulationSummary where
  id : ℤ
  runs : ℤ
  context : RaceContext
  results : List DriverSimulationResult
  predictedWinner : Option DriverSimulationResult
  predictedPodium : List DriverSimulationResult
deriving DecidableEq, Repr

/-- POINTS_TABLE constant of prediction.ts. -/
def POINTS_TABLE : List ℕ := [25, 18, 15, 12, 10, 8, 6, 4, 2, 1]

/-- TRACK_WEIGHTS of prediction.ts: (straightline, cornering) pair. -/
def trackWeights : TrackProfile → ℚ × ℚ
  | .balanced => (1, 1)
  | .power => (125/100, 90/100)
  | .technical => (92/100, 125/100)

/-- WEATHER_WEIGHTS of prediction.ts: (wetSkill, noise) pair. -/
def weatherWeights : WeatherProfile → ℚ × ℚ
  | .dry => (85/100, 85/100)
  | .mixed => (1, 1)
  | .wet => (125/100, 120/100)

/-- TYRE_STRESS_FACTORS of prediction.ts. -/
def tyreStressFactor : TyreStress → ℚ
  | .low => 92/100
  | .medium => 1
  | .high => 112/100

/-- SAFETY_CAR_FACTORS of prediction.ts. -/
def safetyCarFactor : SafetyCarProfile → ℚ
  | .low => 88/100
  | .medium => 1
  | .high => 118/100

/-- Reliability amplifier of runPrediction (prediction.ts lines 116-120):
wet weather adds 0.08, high tyre stress adds 0.05, safety car adds 0.02
when high and 0.01 when medium. -/
def reliabilityAmplifier (c : RaceContext) : ℚ :=
  1 +
  (if c.weather = .wet then 8/100 else 0) +
  (if c.tyreStress = .high then 5/100 else 0) +
  (if c.safetyCar = .high then 2/100 else if c.safetyCar = .medium then 1/100 else 0)

/-- Reliability amplifier of runPredictionOptimized
(prediction-optimized.ts lines 342-344): wet weather adds 0.08 and high
tyre stress adds 0.05; there is no safety-car contribution. -/
def reliabilityAmplifierOptimized (c : RaceContext) : ℚ :=
  1 +
  (if c.weather = .wet then 8/100 else 0) +
  (if c.tyreStress = .high then 5/100 else 0)

/-- Base reliability of a driver (prediction.ts line 159):
clamp(1 - dnfRate * reliabilityAmplifier, 0.04, 0.98). -/
def baseReliability (amp dnfRate : ℚ) : ℚ :=
  clampQ (1 - dnfRate * amp) (4/100) (98/100)

/-- MetricRange of prediction.ts. -/
structure MetricRange where
  lo : ℚ
  hi : ℚ
deriving DecidableEq, Repr

/-- rangeOf of prediction.ts: minimum and maximum of a metric over the
active drivers; the empty case models the infinite sentinels falling
through the isFinite guard, and a collapsed range is widened by an
offset. -/
def rangeOf (ds : List DriverSimulationInput) (sel : DriverSimulationInput → ℚ) :
    MetricRange :=
  match ds.map sel with
  | [] => ⟨0, 1⟩
  | v :: vs =>
    let mn := vs.foldl min v
    let mx := vs.foldl max v
    if mn = mx then
      let offset := if mn = 0 then 1 else |mn| * (1/2)
      ⟨mn - offset, mx + offset⟩
    else ⟨mn, mx⟩

/-- The seven normalisers built by buildNormalisers in prediction.ts. -/
structure Normalisers where
  qualyGap : MetricRange
  longRun : MetricRange
  straightline : MetricRange
  cornering : MetricRange
  pitStop : MetricRange
  grid : MetricRange
  speedTrap : MetricRange
deriving DecidableEq, Repr

/-- buildNormalisers of prediction.ts. -/
def buildNormalisers (ds : List DriverSimulationInput) : Normalisers where
  qualyGap := rangeOf ds (fun d => d.qualyGapMs)
  longRun := rangeOf ds (fun d => d.longRunPaceDelta)
  straightline := rangeOf ds (fun d => d.straightlineIndex)
  cornering := rangeOf ds (fun d => d.corneringIndex)
  pitStop := rangeOf ds (fun d => d.pitStopMedian)
  grid := rangeOf ds (fun d => d.gridPosition)
  speedTrap := rangeOf ds (fun d => d.speedTrapKph)

/-- normalise of prediction.ts. -/
def normalise (value : ℚ) (r : MetricRange) (invert : Bool) : ℚ :=
  if r.hi = r.lo then 1/2
  else
    let bounded := clampQ ((value - r.lo) / (r.hi - r.lo)) 0 1
    if invert then 1 - bounded else bounded

/-- Deterministic pace score of one driver (prediction.ts lines 162-173). -/
def paceScore (n : Normalisers) (trackW : ℚ × ℚ) (weatherW : ℚ × ℚ)
    (tyreFactor : ℚ) (d : DriverSimulationInput) : ℚ :=
  let normQualy := normalise d.qualyGapMs n.qualyGap true
  let normLongRun := normalise d.longRunPaceDelta n.longRun true
  let normStraightline := normalise d.straightlineIndex n.straightline false
  let normCornering := normalise d.corneringIndex n.cornering false
  let normPitStop := normalise d.pitStopMedian n.pitStop true
  let normGrid := normalise d.gridPosition n.grid true
  let normSpeedTrap := normalise d.speedTrapKph n.speedTrap false
  let tyreBonus := clampQ (d.tyreManagement * tyreFactor) 0 (110/100)
  28/100 * normLongRun +
  20/100 * normQualy +
  10/100 * normGrid +
  10/100 * (normStraightline * trackW.1) +
  10/100 * (normCornering * trackW.2) +
  6/100 * (1 - normPitStop) +
  5/100 * normSpeedTrap * trackW.1 +
  5/100 * d.consistency +
  3/100 * d.aggression +
  3/100 * tyreBonus +
  4/100 * d.wetSkill * weatherW.1

/-- Abstract per-(run, driver) random draws of the engine.  The z field is
the standard-normal value returned by randomNormal (its Box-Muller body
applies sqrt, log and cos to consumed uniforms, which have no exact
rational form and are kept opaque); the rel field is the uniform consumed
for the reliability check.  Both streams are fully determined by the seed,
so a fixed oracle corresponds to a fixed numeric seed. -/
structure DrawOracle where
  z : Nat → Nat → ℚ
  rel : Nat → Nat → ℚ

/-- One element of raceSample in prediction.ts: the driver id, the
finishing score and the finish flag. -/
structure RaceSample where
  id : String
  score : ℚ
  didFinish : Bool
deriving DecidableEq, Repr

/-- Context-derived quantities precomputed by runPrediction before the
run loop. -/
structure EngineParams where
  norms : Normalisers
  trackW : ℚ × ℚ
  weatherW : ℚ × ℚ
  tyreFactor : ℚ
  scFactor : ℚ
  amp : ℚ
  noiseSigma : ℚ
deriving Repr

/-- Precomputation of runPrediction (prediction.ts lines 107-145). -/
def mkParams (active : List DriverSimulationInput) (c : RaceContext) : EngineParams :=
  let randomness := clampQ c.randomness 0 1
  let weatherW := weatherWeights c.weather
  let scF := safetyCarFactor c.safetyCar
  { norms := buildNormalisers active
    trackW := trackWeights c.trackProfile
    weatherW := weatherW
    tyreFactor := tyreStressFactor c.tyreStress
    scFactor := scF
    amp := reliabilityAmplifier c
    noiseSigma := (35/100 + randomness * (45/100)) * weatherW.2 * scF }

/-- Per-run sample construction (prediction.ts lines 150-186): the map
over the active drivers in input order; the driver with list index j in
run r receives noise randomNormal(0, noiseSigma) = noiseSigma * z r j and
the reliability uniform rel r j. -/
def buildSamples (o : DrawOracle) (p : EngineParams) (r : Nat) :
    List DriverSimulationInput → Nat → List RaceSample
  | [], _ => []
  | d :: rest, j =>
    let pace := paceScore p.norms p.trackW p.weatherW p.tyreFactor d
    let noise := p.noiseSigma * o.z r j
    let rel := baseReliability p.amp d.dnfRate
    let fin := decide (o.rel r j < rel)
    let score := if fin then pace + noise else -5 + noise * (1/2)
    ⟨d.id, score, fin⟩ :: buildSamples o p r rest (j + 1)

/-- Stable insertion of an element into a sorted list: the element goes
before the first entry it may precede.  Models the placement performed by
an ECMAScript stable comparator sort. -/
def stableInsert (le : α → α → Bool) (a : α) : List α → List α
  | [] => [a]
  | b :: rest => if le a b then a :: b :: rest else b :: stableInsert le a rest

/-- Stable sort modelling Array.prototype.sort with a total comparator
(stable since ES2019): an element precedes another exactly when the
comparator allows it, ties keeping input order. -/
def jsStableSort (le : α → α → Bool) : List α → List α
  | [] => []
  | a :: rest => stableInsert le a (jsStableSort le rest)

/-- Comparator (a, b) => b.score - a.score of prediction.ts line 188:
a may precede b when the comparator is nonpositive. -/
def sampleLE (a b : RaceSample) : Bool := decide (b.score ≤ a.score)

/-- Comparator of prediction.ts lines 242-247: win probability
descending, then average finish ascending. -/
def resultLE (a b : DriverSimulationResult) : Bool :=
  if a.winProbability = b.winProbability then decide (a.averageFinish ≤ b.averageFinish)
  else decide (b.winProbability ≤ a.winProbability)

/-- AggregatedStats of prediction.ts; bestFinish none models the
Number.POSITIVE_INFINITY initial value. -/
structure AggregatedStats where
  wins : ℕ
  podiums : ℕ
  points : ℕ
  dnfs : ℕ
  totalFinish : ℤ
  totalFinishSquared : ℤ
  bestFinish : Option ℤ
  worstFinish : ℤ
deriving DecidableEq, Repr

/-- Initial statistics record (prediction.ts lines 131-141). -/
def initStats : AggregatedStats :=
  { wins := 0, podiums := 0, points := 0, dnfs := 0,
    totalFinish := 0, totalFinishSquared := 0,
    bestFinish := none, worstFinish := 0 }

/-- Statistics update for one driver at final position pos
(prediction.ts lines 195-212). -/
def statStep (pos : ℤ) (didFinish : Bool) (st : AggregatedStats) : AggregatedStats :=
  { wins := st.wins + (if pos = 1 then 1 else 0)
    podiums := st.podiums + (if pos ≤ 3 then 1 else 0)
    points := st.points + (if pos ≤ 10 then POINTS_TABLE.getD (pos - 1).toNat 0 else 0)
    dnfs := st.dnfs + (if didFinish then 0 else 1)
    totalFinish := st.totalFinish + pos
    totalFinishSquared := st.totalFinishSquared + pos * pos
    bestFinish := some (match st.bestFinish with
      | none => pos
      | some b => min b pos)
    worstFinish := max st.worstFinish pos }

/-- The stats container: an association list with the lookup and update
semantics of the JavaScript Map keyed by driver id. -/
abbrev StatsMap : Type := List (String × AggregatedStats)

/-- Map.get: first entry with the key. -/
def mapGet (m : StatsMap) (k : String) : Option AggregatedStats :=
  match m with
  | [] => none
  | (k', v) :: rest => if k' = k then some v else mapGet rest k

/-- Map.set: replace the first entry with the key, else append. -/
def mapSet (m : StatsMap) (k : String) (v : AggregatedStats) : StatsMap :=
  match m with
  | [] => [(k, v)]
  | (k', v') :: rest => if k' = k then (k, v) :: rest else (k', v') :: mapSet rest k v

/-- In-place mutation of the record returned by Map.get: apply f to the
first entry with the key. -/
def mapUpdate (m : StatsMap) (k : String) (f : AggregatedStats → AggregatedStats) :
    StatsMap :=
  match m with
  | [] => []
  | (k', v) :: rest => if k' = k then (k', f v) :: rest else (k', v) :: mapUpdate rest k f

/-- Initial stats map built by the forEach over the drivers
(prediction.ts lines 130-142). -/
def initStatsMap (ds : List DriverSimulationInput) : StatsMap :=
  ds.foldl (fun m d => mapSet m d.id initStats) []

/-- The position walk over the sorted samples (prediction.ts lines
190-216): each sample whose id is found in the map receives the next
position, starting from 1; an absent id is skipped without advancing the
position counter. -/
def walk (samples : List RaceSample) (pos : ℤ) (m : StatsMap) : StatsMap :=
  match samples with
  | [] => m
  | s :: rest =>
    match mapGet m s.id with
    | none => walk rest pos m
    | some _ => walk rest (pos + 1) (mapUpdate m s.id (statStep pos s.didFinish))

/-- One simulation run: sort the samples by descending score and walk the
positions (prediction.ts lines 188-216). -/
def applyRun (samples : List RaceSample) (m : StatsMap) : StatsMap :=
  walk (jsStableSort sampleLE samples) 1 m

/-- The run loop, ascending over run indices. -/
def simLoop (f : Nat → StatsMap → StatsMap) : Nat → Nat → StatsMap → StatsMap
  | _, 0, m => m
  | i, k + 1, m => simLoop f (i + 1) k (f i m)

/-- Result record computed from the aggregated statistics
(prediction.ts lines 219-241). -/
def mkResult (runs : ℕ) (d : DriverSimulationInput) (st : AggregatedStats) :
    DriverSimulationResult :=
  let averageFinish := (st.totalFinish : ℚ) / (runs : ℚ)
  let meanSquares := (st.totalFinishSquared : ℚ) / (runs : ℚ)
  let variance := max (meanSquares - averageFinish * averageFinish) 0
  { id := d.id
    name := d.name
    team := d.team
    code := d.code
    winProbability := (st.wins : ℚ) / (runs : ℚ)
    podiumProbability := (st.podiums : ℚ) / (runs : ℚ)
    averageFinish := averageFinish
    expectedPoints := (st.points : ℚ) / (runs : ℚ)
    dnfProbability := (st.dnfs : ℚ) / (runs : ℚ)
    bestFinish := st.bestFinish.getD 0
    worstFinish := st.worstFinish
    consistencyIndex := clampQ (1 - variance / 12) 0 1 }

/-- Active-driver filter of prediction.ts line 95:
drivers.filter(d => d.isActive !== false). -/
def activeOf (drivers : List DriverSimulationInput) : List DriverSimulationInput :=
  drivers.filter (fun d => !(d.isActive == some false))

/-- Clamped integer run count of prediction.ts line 107. -/
def clampedRuns (c : RaceContext) : ℕ := (clampZ (jsRound c.runs) 500 20000).toNat

/-- The sorted result list of the engine for a given active driver list:
the body of the else branch of runPrediction. -/
def engineResults (o : DrawOracle) (active : List DriverSimulationInput)
    (c : RaceContext) : List DriverSimulationResult :=
  let runs := clampedRuns c
  let p := mkParams active c
  let stats := simLoop (fun r m => applyRun (buildSamples o p r active 0) m) 0 runs
    (initStatsMap active)
  jsStableSort resultLE
    (active.map (fun d => mkResult runs d ((mapGet stats d.id).getD initStats)))

/-- runPrediction of prediction.ts.  The now argument models Date.now();
fewer than two active drivers yield the empty summary of lines 96-105,
otherwise the simulation proceeds and the summary of lines 249-257 is
returned with the caller's context echoed unmodified. -/
def runPrediction (o : DrawOracle) (now : ℤ) (drivers : List DriverSimulationInput)
    (c : RaceContext) : SimulationSummary :=
  let active := activeOf drivers
  if active.length < 2 then
    { id := now, runs := 0, context := c, results := [],
      predictedWinner := none, predictedPodium := [] }
  else
    let results := engineResults o active c
    { id := now, runs := (clampedRuns c : ℤ), context := c, results := results,
      predictedWinner := results.head?, predictedPodium := results.take 3 }

/-! RNG consumption model for the seeded engine (prediction.ts lines
147, 175-177, 306-321).  mulberry32 is exact 32-bit integer arithmetic,
modelled on unsigned 32-bit naturals; each JavaScript coercion to int32
or uint32 is congruent to reduction mod 2^32, so an unsigned
representative is faithful for every operation used. -/

/-- One step of mulberry32 (prediction.ts lines 306-311): from the
current state, the next state and the 32-bit output (the returned uniform
is the output divided by 2^32). -/
def mb32Next (a : Nat) : Nat × Nat :=
  let a2 := (a + 0x6D2B79F5) % 2 ^ 32
  let t0 := ((a2 ^^^ (a2 >>> 15)) * (1 ||| a2)) % 2 ^ 32
  let t1 := ((t0 + ((t0 ^^^ (t0 >>> 7)) * (61 ||| t0)) % 2 ^ 32) % 2 ^ 32) ^^^ t0
  (a2, t1 ^^^ (t1 >>> 14))

/-- mulberry32 state after k calls, from the 32-bit initial seed. -/
def mbStateN (a : Nat) : Nat → Nat
  | 0 => a
  | k + 1 => (mb32Next (mbStateN a k)).1

/-- 32-bit output of the (k+1)-th call of mulberry32. -/
def mbOutN (a : Nat) (k : Nat) : Nat := (mb32Next (mbStateN a k)).2

/-- Uniform stream of mulberry32: the k-th rng() value in [0, 1). -/
def mbTape (a : Nat) (k : Nat) : ℚ := (mbOutN a k : ℚ) / 4294967296

/-- The while (u === 0) u = rng() loop of randomNormal: starting at tape
position i, return the first nonzero draw and the next position; fuel
bounds the number of retries (the loop is unbounded in the source). -/
def drawNonzero (tape : Nat → ℚ) : Nat → Nat → Option (ℚ × Nat)
  | _, 0 => none
  | i, fuel + 1 => if tape i = 0 then drawNonzero tape (i + 1) fuel else some (tape i, i + 1)

/-- Uniforms consumed by one call of randomNormal (prediction.ts lines
313-321): first the u loop, then the v loop. -/
structure NormalDrawTrace where
  u : ℚ
  v : ℚ
  nextPos : Nat
deriving DecidableEq, Repr

/-- Consumption of randomNormal starting at tape position i. -/
def randomNormalConsume (tape : Nat → ℚ) (i fuel : Nat) : Option NormalDrawTrace :=
  match drawNonzero tape i fuel with
  | none => none
  | some (u, j) =>
    match drawNonzero tape j fuel with
    | none => none
    | some (v, k) => some ⟨u, v, k⟩

/-- Uniforms consumed for one driver in one run of runPrediction. -/
structure DriverDrawTrace where
  u : ℚ
  v : ℚ
  rel : ℚ
  nextPos : Nat
deriving DecidableEq, Repr

/-- Per-driver RNG consumption of runPrediction (prediction.ts lines
175-176): const randomNoise = randomNormal(0, noiseSigma, rng) runs
first, then const reliabilityCheck = rng() draws one more uniform. -/
def driverDrawsPT (tape : Nat → ℚ) (i fuel : Nat) : Option DriverDrawTrace :=
  match randomNormalConsume tape i fuel with
  | none => none
  | some t => some ⟨t.u, t.v, tape t.nextPos, t.nextPos + 1⟩

/-! OptimizedRandom of prediction-optimized.ts (lines 179-236).  The
constructor default seed is Math.random(), a fractional number in [0, 1);
every bitwise operator first applies the ECMAScript ToInt32 coercion,
which truncates the fraction. -/

/-- ECMAScript truncation toward zero of a number. -/
def ratTrunc (q : ℚ) : ℤ := if q < 0 then -(⌊-q⌋) else ⌊q⌋

/-- ECMAScript ToUint32: truncate, then reduce mod 2^32 (the signed
ToInt32 value is congruent mod 2^32, so the unsigned representative is
faithful for the xor, shift and or operations used). -/
def jsToUint32 (q : ℚ) : Nat := (ratTrunc q % (2 ^ 32 : ℤ)).toNat

/-- The xorshift body of OptimizedRandom.next() on the 32-bit state:
seed ^= seed << 13; seed ^= seed >>> 17; seed ^= seed << 5. -/
def xs32Step (s : Nat) : Nat :=
  let s1 := s ^^^ ((s <<< 13) % 2 ^ 32)
  let s2 := s1 ^^^ (s1 >>> 17)
  s2 ^^^ ((s2 <<< 5) % 2 ^ 32)

/-- OptimizedRandom.next(): the stored seed is coerced to 32 bits by the
bitwise assignments, stepped, and the output is (seed >>> 0) / 2^32.
The state is the JavaScript number stored in this.seed. -/
def orNext (s : ℚ) : ℚ × ℚ :=
  let n := xs32Step (jsToUint32 s)
  ((n : ℚ), (n : ℚ) / 4294967296)

/-- The stream of next() outputs from initial stored seed s. -/
def orStream (s : ℚ) : Nat → ℚ
  | 0 => (orNext s).2
  | k + 1 => orStream (orNext s).1 k

/-- The while (u === 0) u = this.next() loop of OptimizedRandom.normal():
returns the first nonzero output and the state after it, none when fuel
retries all returned zero. -/
def orFindNonzero (s : ℚ) : Nat → Option (ℚ × ℚ)
  | 0 => none
  | fuel + 1 =>
    let step := orNext s
    if step.2 = 0 then orFindNonzero step.1 fuel else some (step.2, step.1)

/-! Variation applicator of the simulation store (stores/simulationStore.ts,
runSimulation): enabled factors are applied to the active drivers before
the engine is invoked. -/

/-- Target type of a variation factor. -/
inductive TargetType
  | driver
  | team
deriving DecidableEq, Repr

/-- VariationTarget from lib/news-factors.ts. -/
structure VariationTarget where
  type : TargetType
  id : String
deriving DecidableEq, Repr

/-- Impact type of a news factor. -/
inductive ImpactType
  | pace
  | reliability
  | qualifying
  | strategy
deriving DecidableEq, Repr

/-- NewsFactor fields consumed by the applicator. -/
structure NewsFactor where
  id : String
  impactType : ImpactType
  targets : List VariationTarget
  magnitude : ℚ
  enabled : Bool
deriving DecidableEq, Repr

/-- JavaScript toUpperCase restricted to the character-wise mapping. -/
def jsToUpper (s : String) : String := s.map Char.toUpper

/-- JavaScript toLowerCase restricted to the character-wise mapping. -/
def jsToLower (s : String) : String := s.map Char.toLower

/-- Containment of one character list in another, modelling
String.prototype.includes. -/
def charListContains (needle : List Char) : List Char → Bool
  | [] => needle.isPrefixOf ([] : List Char)
  | c :: cs => needle.isPrefixOf (c :: cs) || charListContains needle cs

/-- String.prototype.includes. -/
def strIncludes (hay needle : String) : Bool :=
  charListContains needle.toList hay.toList

/-- targetMatches of runSimulation (simulationStore.ts lines 252-259):
an empty target list matches every driver; a driver target compares codes
case-insensitively; a team target checks case-insensitive containment in
the team name. -/
def targetMatches (targets : List VariationTarget) (d : DriverSimulationInput) : Bool :=
  if targets.isEmpty then true
  else targets.any (fun t =>
    match t.type with
    | .driver => jsToUpper d.code = jsToUpper t.id
    | .team => strIncludes (jsToLower d.team) (jsToLower t.id))

/-- Reliability and qualifying adjustment of one factor on one driver
(simulationStore.ts lines 271-281): reliability adds magnitude * 0.05 to
dnfRate clamped to [0, 0.6]; qualifying adds Math.round(magnitude * -2)
to gridPosition floored at 1; other impact types leave the driver
unchanged in this loop. -/
def applyFactor (f : NewsFactor) (d : DriverSimulationInput) : DriverSimulationInput :=
  if targetMatches f.targets d then
    match f.impactType with
    | .reliability =>
      { d with dnfRate := max 0 (min (6/10) (d.dnfRate + f.magnitude * (5/100))) }
    | .qualifying =>
      { d with gridPosition := max 1 (d.gridPosition + (jsRound (f.magnitude * (-2)) : ℚ)) }
    | _ => d
  else d

/-- The factor loop: outer iteration over the enabled factors, inner map
over the effective drivers (simulationStore.ts lines 250, 271-281). -/
def applyQualRel (factors : List NewsFactor) (drivers : List DriverSimulationInput) :
    List DriverSimulationInput :=
  (factors.filter (fun f => f.enabled)).foldl
    (fun ds f => ds.map (fun d => applyFactor f d)) drivers

/-- Grid update stated by the specification for a qualifying factor:
gridPosition becomes max(1, gridPosition - round(2 * magnitude)).  This
definition follows the specification text, for comparison with
applyFactor. -/
def specQualifyingGrid (magnitude grid : ℚ) : ℚ :=
  max 1 (grid - (jsRound (2 * magnitude) : ℚ))

/-! Observers and helpers used by the theorems below. -/

/-- Plain iteration of a stats-map transformer, the shape simLoop takes
when the per-run step does not depend on the run index. -/
def iterN (g : StatsMap → StatsMap) : Nat → StatsMap → StatsMap
  | 0, m => m
  | k + 1, m => iterN g k (g m)

/-- Total win count over all entries of the stats map. -/
def sumWins (m : StatsMap) : ℕ := (m.map (fun e => e.2.wins)).sum

/-- Keys of the stats map, in entry order. -/
def mapKeys (m : StatsMap) : List String := m.map Prod.fst

/-- DNF tally of the entry with the given key (0 when absent, as in the
initial record). -/
def dnfsOf (m : StatsMap) (k : String) : ℕ := ((mapGet m k).getD initStats).dnfs

/-- Observer of the walk of prediction.ts lines 190-216: the same
recursion as walk, recording the (driver id, position) pairs it assigns
instead of the statistics updates. -/
def walkPositions (samples : List RaceSample) (pos : ℤ) (m : StatsMap) :
    List (String × ℤ) :=
  match samples with
  | [] => []
  | s :: rest =>
    match mapGet m s.id with
    | none => walkPositions rest pos m
    | some _ => (s.id, pos) :: walkPositions rest (pos + 1) (mapUpdate m s.id (statStep pos s.didFinish))

/-- Consecutive integers start, start+1, ..., start+n-1. -/
def intRange (start : ℤ) : Nat → List ℤ
  | 0 => []
  | n + 1 => start :: intRange (start + 1) n

/-! Concrete two-driver scenario used by several counterexamples.  Driver
a is quick everywhere; driver b is slow everywhere; both have dnfRate 0;
the context has dry weather, low tyre stress and a low safety-car
profile, so no reliability-reducing settings.  The oracle draws z = 0
(noise-free) and reliability uniforms 0 for driver index 0 and 0.99 for
every other driver index; 0.99 is a value mulberry32 attains, and with
baseReliability clamped to 0.98 driver b then never finishes. -/

/-- Scenario driver a. -/
def drvA : DriverSimulationInput :=
  { id := "a", code := "AAA", name := "A", team := "TA",
    gridPosition := 1, qualyGapMs := 0, longRunPaceDelta := 0,
    straightlineIndex := 1, corneringIndex := 1, speedTrapKph := 1,
    pitStopMedian := 1, dnfRate := 0, wetSkill := 0, consistency := 0,
    tyreManagement := 0, aggression := 0, experience := 0, isActive := none }

/-- Scenario driver b. -/
def drvB : DriverSimulationInput :=
  { id := "b", code := "BBB", name := "B", team := "TB",
    gridPosition := 2, qualyGapMs := 1, longRunPaceDelta := 1,
    straightlineIndex := 0, corneringIndex := 0, speedTrapKph := 0,
    pitStopMedian := 0, dnfRate := 0, wetSkill := 0, consistency := 0,
    tyreManagement := 0, aggression := 0, experience := 0, isActive := none }

/-- Scenario context: no reliability-reducing settings, 500 runs,
randomness 0, seed 42. -/
def ctxCE : RaceContext :=
  { trackProfile := .balanced, weather := .dry, tyreStress := .low,
    safetyCar := .low, runs := 500, randomness := 0, seed := some 42 }

/-- Scenario oracle. -/
def oCE : DrawOracle :=
  { z := fun _ _ => 0
    rel := fun _ j => if j = 0 then 0 else 99/100 }

/-- Scenario sample of driver a in every run: finishes with score 0.89. -/
def sCEa : RaceSample := ⟨"a", 89/100, true⟩

/-- Scenario sample of driver b in every run: does not finish, score -5. -/
def sCEb : RaceSample := ⟨"b", -5, false⟩

/-- Scenario statistics after k+1 runs: driver a wins every run at
position 1, driver b is second and DNFs every run. -/
def statsCE (k : ℕ) : StatsMap :=
  [("a", { wins := k + 1, podiums := k + 1, points := 25 * (k + 1), dnfs := 0,
           totalFinish := (k : ℤ) + 1, totalFinishSquared := (k : ℤ) + 1,
           bestFinish := some 1, worstFinish := 1 }),
   ("b", { wins := 0, podiums := k + 1, points := 18 * (k + 1), dnfs := k + 1,
           totalFinish := 2 * ((k : ℤ) + 1), totalFinishSquared := 4 * ((k : ℤ) + 1),
           bestFinish := some 2, worstFinish := 2 })]

/-- Scenario result row of driver a. -/
def resACE : DriverSimulationResult :=
  { id := "a", name := "A", team := "TA", code := "AAA",
    winProbability := 1, podiumProbability := 1, averageFinish := 1,
    expectedPoints := 25, dnfProbability := 0, bestFinish := 1,
    worstFinish := 1, consistencyIndex := 1 }

/-- Scenario result row of driver b. -/
def resBCE : DriverSimulationResult :=
  { id := "b", name := "B", team := "TB", code := "BBB",
    winProbability := 0, podiumProbability := 1, averageFinish := 2,
    expectedPoints := 18, dnfProbability := 1, bestFinish := 2,
    worstFinish := 2, consistencyIndex := 1 }

/-- Scenario driver c: marked inactive, used to check that inactive rows
do not influence the results. -/
def drvC : DriverSimulationInput :=
  { id := "c", code := "CCC", name := "C", team := "TC",
    gridPosition := 3, qualyGapMs := 2, longRunPaceDelta := 2,
    straightlineIndex := 2, corneringIndex := 2, speedTrapKph := 2,
    pitStopMedian := 2, dnfRate := 0, wetSkill := 0, consistency := 0,
    tyreManagement := 0, aggression := 0, experience := 0, isActive := some false }

/-- Enabled global qualifying factor of magnitude one quarter. -/
def qfQuarter : NewsFactor :=
  { id := "f", impactType := .qualifying, targets := [], magnitude := 1/4, enabled := true }

/-- Enabled global qualifying factor of magnitude one. -/
def qfOne : NewsFactor :=
  { id := "f", impactType := .qualifying, targets := [], magnitude := 1, enabled := true }

/-! Helper lemmas. -/

theorem mapGet_mapUpdate (m : StatsMap) (k k' : String) (f : AggregatedStats → AggregatedStats) :
    mapGet (mapUpdate m k f) k' =
      if k = k' then (mapGet m k').map f else mapGet m k' := by
  induction m with
  | nil =>
    by_cases h : k = k' <;> simp [mapGet, mapUpdate, h]
  | cons e rest ih =>
    obtain ⟨ke, ve⟩ := e
    by_cases hk : ke = k
    · subst hk
      by_cases hk' : ke = k'
      · simp [mapUpdate, mapGet, hk']
      · simp [mapUpdate, mapGet, hk']
    · by_cases hk' : ke = k'
      · subst hk'
        have hkk : ¬ k = ke := fun h => hk h.symm
        simp [mapUpdate, mapGet, hk, hkk]
      · simp [mapUpdate, mapGet, hk, hk', ih]

theorem mapGet_mapUpdate_isSome (m : StatsMap) (k k' : String)
    (f : AggregatedStats → AggregatedStats) :
    (mapGet (mapUpdate m k f) k').isSome = (mapGet m k').isSome := by
  rw [mapGet_mapUpdate]
  by_cases h : k = k' <;> simp [h]

theorem mapKeys_mapUpdate (m : StatsMap) (k : String) (f : AggregatedStats → AggregatedStats) :
    mapKeys (mapUpdate m k f) = mapKeys m := by
  induction m with
  | nil => simp [mapUpdate, mapKeys]
  | cons e rest ih =>
    obtain ⟨ke, ve⟩ := e
    by_cases hk : ke = k
    · simp [mapUpdate, mapKeys, hk]
    · simp only [mapUpdate, mapKeys, hk, if_false, List.map_cons]
      simpa [mapKeys] using ih

theorem mem_mapKeys_isSome (m : StatsMap) (k : String) (h : k ∈ mapKeys m) :
    (mapGet m k).isSome := by
  induction m with
  | nil => simp [mapKeys] at h
  | cons e rest ih =>
    obtain ⟨ke, ve⟩ := e
    by_cases hk : ke = k
    · simp [mapGet, hk]
    · simp [mapKeys, hk] at h
      rcases h with h | h
      · exact absurd h.symm hk
      · simpa [mapGet, hk] using ih (by simpa [mapKeys] using h)

theorem stableInsert_perm (le : α → α → Bool) (a : α) (l : List α) :
    (stableInsert le a l).Perm (a :: l) := by
  induction l with
  | nil => simp [stableInsert]
  | cons b rest ih =>
    by_cases h : le a b
    · simp [stableInsert, h]
    · simp only [stableInsert, h, Bool.false_eq_true, if_false]
      exact ((ih.cons b).trans (List.Perm.swap a b rest))

theorem jsStableSort_perm (le : α → α → Bool) (l : List α) :
    (jsStableSort le l).Perm l := by
  induction l with
  | nil => simp [jsStableSort]
  | cons a rest ih =>
    exact ((stableInsert_perm le a (jsStableSort le rest)).trans (ih.cons a))

theorem runPrediction_results (o : DrawOracle) (now : ℤ) (d : List DriverSimulationInput)
    (c : RaceContext) :
    (runPrediction o now d c).results =
      if (activeOf d).length < 2 then [] else engineResults o (activeOf d) c := by
  simp only [runPrediction]
  split <;> rfl

theorem runPrediction_context (o : DrawOracle) (now : ℤ) (d : List DriverSimulationInput)
    (c : RaceContext) :
    (runPrediction o now d c).context = c := by
  simp only [runPrediction]
  split <;> rfl

theorem runPrediction_runs (o : DrawOracle) (now : ℤ) (d : List DriverSimulationInput)
    (c : RaceContext) :
    (runPrediction o now d c).runs =
      if (activeOf d).length < 2 then 0 else (clampedRuns c : ℤ) := by
  simp only [runPrediction]
  split <;> rfl

theorem clampedRuns_cast (c : RaceContext) :
    (clampedRuns c : ℤ) = clampZ (jsRound c.runs) 500 20000 := by
  have h : (0 : ℤ) ≤ clampZ (jsRound c.runs) 500 20000 := by
    have h500 : (500 : ℤ) ≤ max (jsRound c.runs) 500 := le_max_right _ _
    have : (500 : ℤ) ≤ clampZ (jsRound c.runs) 500 20000 := by
      unfold clampZ
      exact le_min h500 (by norm_num)
    omega
  unfold clampedRuns
  exact Int.toNat_of_nonneg h

theorem clampedRuns_pos (c : RaceContext) : 500 ≤ clampedRuns c := by
  have h500 : (500 : ℤ) ≤ clampZ (jsRound c.runs) 500 20000 := by
    unfold clampZ
    exact le_min (le_max_right _ _) (by norm_num)
  unfold clampedRuns
  omega

/-! Lemmas on the unseeded OptimizedRandom generator. -/

theorem jsToUint32_frac {s : ℚ} (h0 : 0 ≤ s) (h1 : s < 1) : jsToUint32 s = 0 := by
  have hfloor : ⌊s⌋ = 0 := by
    rw [Int.floor_eq_zero_iff]
    simp only [Set.mem_Ico]
    exact ⟨h0, h1⟩
  have : ratTrunc s = 0 := by
    unfold ratTrunc
    rw [if_neg (not_lt.mpr h0), hfloor]
  simp [jsToUint32, this]

theorem orNext_of_frac {s : ℚ} (h0 : 0 ≤ s) (h1 : s < 1) : orNext s = (0, 0) := by
  unfold orNext
  rw [jsToUint32_frac h0 h1]
  norm_num [xs32Step]

theorem orNext_zero : orNext 0 = (0, 0) :=
  orNext_of_frac le_rfl (by norm_num)

theorem orStream_zero_state : ∀ k, orStream 0 k = 0 := by
  intro k
  induction k with
  | zero => simp [orStream, orNext_zero]
  | succ n ih => rw [orStream, orNext_zero]; exact ih

theorem orFindNonzero_zero_state : ∀ fuel, orFindNonzero 0 fuel = none := by
  intro fuel
  induction fuel with
  | zero => rfl
  | succ n ih => rw [orFindNonzero, orNext_zero]; simpa using ih

/-! Lemmas on mulberry32 and the RNG consumption order of the seeded
engine. -/

theorem mbOutN_42_0 : mbOutN 42 0 = 2581720956 := by decide

theorem mbOutN_42_1 : mbOutN 42 1 = 1925393290 := by decide

theorem mbOutN_42_2 : mbOutN 42 2 = 3661312704 := by decide

theorem mbTape_42_0_ne : mbTape 42 0 ≠ 0 := by
  unfold mbTape
  rw [mbOutN_42_0]
  norm_num

theorem mbTape_42_1_ne : mbTape 42 1 ≠ 0 := by
  unfold mbTape
  rw [mbOutN_42_1]
  norm_num

theorem mbTape_42_2_ne_0th : mbTape 42 2 ≠ mbTape 42 0 := by
  unfold mbTape
  rw [mbOutN_42_0, mbOutN_42_2]
  norm_num

theorem driverDrawsPT_spec (tape : Nat → ℚ) (i fuel : Nat)
    (h0 : tape i ≠ 0) (h1 : tape (i + 1) ≠ 0) :
    driverDrawsPT tape i (fuel + 1) =
      some ⟨tape i, tape (i + 1), tape (i + 2), i + 3⟩ := by
  have e1 : drawNonzero tape i (fuel + 1) = some (tape i, i + 1) := by
    simp only [drawNonzero]
    rw [if_neg h0]
  have e2 : drawNonzero tape (i + 1) (fuel + 1) = some (tape (i + 1), i + 2) := by
    simp only [drawNonzero]
    rw [if_neg h1]
  simp [driverDrawsPT, randomNormalConsume, e1, e2]

/-! Counting lemmas through the run loop, used for the probability
simplex claim. -/

theorem buildSamples_ids (o : DrawOracle) (p : EngineParams) (r : Nat) :
    ∀ (l : List DriverSimulationInput) (j : Nat),
      (buildSamples o p r l j).map (fun s => s.id) = l.map (fun d => d.id) := by
  intro l
  induction l with
  | nil => intro j; simp [buildSamples]
  | cons d rest ih => intro j; simp [buildSamples, ih (j + 1)]

theorem mapKeys_mapSet_notMem (m : StatsMap) (k : String) (v : AggregatedStats)
    (h : k ∉ mapKeys m) : mapKeys (mapSet m k v) = mapKeys m ++ [k] := by
  induction m with
  | nil => simp [mapSet, mapKeys]
  | cons e rest ih =>
    obtain ⟨ke, ve⟩ := e
    have hke : ke ≠ k := by
      intro hh
      exact h (by simp [mapKeys, hh])
    have hrest : k ∉ mapKeys rest := by
      intro hh
      exact h (by simp [mapKeys] at hh ⊢; exact Or.inr hh)
    simp only [mapSet, hke, if_false, mapKeys, List.map_cons, List.cons_append]
    simpa [mapKeys] using ih hrest

theorem initStatsMap_keys_aux (l : List DriverSimulationInput) :
    ∀ (m : StatsMap), (∀ d ∈ l, d.id ∉ mapKeys m) →
      (l.map (fun d => d.id)).Nodup →
      mapKeys (l.foldl (fun mm d => mapSet mm d.id initStats) m) =
        mapKeys m ++ l.map (fun d => d.id) := by
  induction l with
  | nil => intro m _ _; simp
  | cons d rest ih =>
    intro m hd hnd
    have hdm : d.id ∉ mapKeys m := hd d (by simp)
    have hkeys : mapKeys (mapSet m d.id initStats) = mapKeys m ++ [d.id] :=
      mapKeys_mapSet_notMem m d.id initStats hdm
    have hnd' : (rest.map (fun x => x.id)).Nodup := by
      simpa using hnd.of_cons
    have hd' : ∀ x ∈ rest, x.id ∉ mapKeys (mapSet m d.id initStats) := by
      intro x hx
      rw [hkeys]
      intro hmem
      rcases List.mem_append.mp hmem with hmem | hmem
      · exact hd x (by simp [hx]) hmem
      · have hxid : x.id = d.id := by simpa using hmem
        have : d.id ∈ rest.map (fun y => y.id) := by
          exact hxid ▸ List.mem_map_of_mem (fun y => y.id) hx
        exact (List.nodup_cons.mp (by simpa using hnd)).1 this
    calc mapKeys ((d :: rest).foldl (fun mm x => mapSet mm x.id initStats) m)
        = mapKeys (rest.foldl (fun mm x => mapSet mm x.id initStats)
            (mapSet m d.id initStats)) := by simp
      _ = mapKeys (mapSet m d.id initStats) ++ rest.map (fun x => x.id) :=
            ih _ hd' hnd'
      _ = mapKeys m ++ (d :: rest).map (fun x => x.id) := by
            rw [hkeys, List.append_assoc]; simp

theorem initStatsMap_keys (l : List DriverSimulationInput)
    (hnd : (l.map (fun d => d.id)).Nodup) :
    mapKeys (initStatsMap l) = l.map (fun d => d.id) := by
  have := initStatsMap_keys_aux l [] (by intro d _; simp [mapKeys]) hnd
  simpa [initStatsMap, mapKeys] using this

theorem mapSet_forall_values (p : AggregatedStats → Prop) (m : StatsMap)
    (k : String) (v : AggregatedStats) (hm : ∀ e ∈ m, p e.2) (hv : p v) :
    ∀ e ∈ mapSet m k v, p e.2 := by
  induction m with
  | nil =>
    intro x hx
    simp only [mapSet, List.mem_singleton] at hx
    simpa [hx] using hv
  | cons e rest ih =>
    obtain ⟨ke, ve⟩ := e
    intro x hx
    by_cases hk : ke = k
    · simp only [mapSet, hk, if_true, List.mem_cons] at hx
      rcases hx with hx | hx
      · simpa [hx] using hv
      · exact hm x (by simp [hx])
    · simp only [mapSet, hk, if_false, List.mem_cons] at hx
      rcases hx with hx | hx
      · exact hm x (by simp [hx])
      · exact ih (fun e he => hm e (by simp [he])) x hx

theorem initStatsMap_values (l : List DriverSimulationInput) :
    ∀ e ∈ initStatsMap l, e.2 = initStats := by
  have aux : ∀ (ll : List DriverSimulationInput) (m : StatsMap),
      (∀ e ∈ m, e.2 = initStats) →
      ∀ e ∈ ll.foldl (fun mm d => mapSet mm d.id initStats) m, e.2 = initStats := by
    intro ll
    induction ll with
    | nil => intro m hm; simpa using hm
    | cons d rest ih =>
      intro m hm e he
      exact ih _
        (mapSet_forall_values (fun st => st = initStats) m d.id initStats hm rfl) e
        (by simpa using he)
  intro e he
  exact aux l [] (by simp) e he

theorem sumWins_eq_zero_of_init (m : StatsMap) (hm : ∀ e ∈ m, e.2 = initStats) :
    sumWins m = 0 := by
  unfold sumWins
  apply List.sum_eq_zero
  intro x hx
  rcases List.mem_map.mp hx with ⟨y, hy, hxy⟩
  rw [← hxy, hm y hy]
  rfl

theorem sumWins_initStatsMap (l : List DriverSimulationInput) :
    sumWins (initStatsMap l) = 0 :=
  sumWins_eq_zero_of_init _ (initStatsMap_values l)

theorem sumWins_mapUpdate (m : StatsMap) (k : String) (pos : ℤ) (fin : Bool)
    (h : (mapGet m k).isSome) :
    sumWins (mapUpdate m k (statStep pos fin)) =
      sumWins m + (if pos = 1 then 1 else 0) := by
  induction m with
  | nil => simp [mapGet] at h
  | cons e rest ih =>
    obtain ⟨ke, ve⟩ := e
    by_cases hk : ke = k
    · simp only [mapUpdate, hk, if_true, sumWins, List.map_cons, List.sum_cons]
      have : (statStep pos fin ve).wins = ve.wins + (if pos = 1 then 1 else 0) := rfl
      rw [this]
      omega
    · have h' : (mapGet rest k).isSome := by
        simpa [mapGet, hk] using h
      simp only [mapUpdate, hk, if_false, sumWins, List.map_cons, List.sum_cons]
      have := ih h'
      simp only [sumWins] at this
      omega

theorem mapKeys_walk (ss : List RaceSample) :
    ∀ (pos : ℤ) (m : StatsMap), mapKeys (walk ss pos m) = mapKeys m := by
  induction ss with
  | nil => intro pos m; simp [walk]
  | cons s rest ih =>
    intro pos m
    simp only [walk]
    cases hsm : mapGet m s.id with
    | none => exact ih pos m
    | some v => rw [ih, mapKeys_mapUpdate]

theorem sumWins_walk (ss : List RaceSample) :
    ∀ (pos : ℤ) (m : StatsMap), 1 ≤ pos →
      (∀ s ∈ ss, (mapGet m s.id).isSome) →
      sumWins (walk ss pos m) =
        sumWins m + (if pos = 1 ∧ ss ≠ [] then 1 else 0) := by
  induction ss with
  | nil => intro pos m _ _; simp [walk]
  | cons s rest ih =>
    intro pos m hpos hf
    have hs : (mapGet m s.id).isSome := hf s (by simp)
    rcases Option.isSome_iff_exists.mp hs with ⟨v, hv⟩
    simp only [walk, hv]
    have hf' : ∀ x ∈ rest, (mapGet (mapUpdate m s.id (statStep pos s.didFinish)) x.id).isSome := by
      intro x hx
      rw [mapGet_mapUpdate_isSome]
      exact hf x (by simp [hx])
    have hup : sumWins (mapUpdate m s.id (statStep pos s.didFinish)) =
        sumWins m + (if pos = 1 then 1 else 0) :=
      sumWins_mapUpdate m s.id pos s.didFinish hs
    rw [ih (pos + 1) _ (by omega) hf', hup]
    have hpos1 : ¬(pos + 1 = 1) := by omega
    simp [hpos1]

theorem sumWins_applyRun (samples : List RaceSample) (m : StatsMap)
    (hne : samples ≠ [])
    (hf : ∀ s ∈ samples, (mapGet m s.id).isSome) :
    sumWins (applyRun samples m) = sumWins m + 1 := by
  have hperm := jsStableSort_perm sampleLE samples
  have hf' : ∀ s ∈ jsStableSort sampleLE samples, (mapGet m s.id).isSome := by
    intro s hsmem
    exact hf s (hperm.mem_iff.mp hsmem)
  have hne' : jsStableSort sampleLE samples ≠ [] := by
    intro hh
    apply hne
    have := hperm.length_eq
    rw [hh] at this
    exact List.length_eq_zero.mp this.symm
  unfold applyRun
  rw [sumWins_walk _ 1 m le_rfl hf']
  simp [hne']

theorem mapKeys_applyRun (samples : List RaceSample) (m : StatsMap) :
    mapKeys (applyRun samples m) = mapKeys m :=
  mapKeys_walk _ 1 m

theorem simLoop_engine_invariant (o : DrawOracle) (p : EngineParams)
    (active : List DriverSimulationInput) (hne : active ≠ []) :
    ∀ (k start : Nat) (m : StatsMap), mapKeys m = active.map (fun d => d.id) →
      sumWins (simLoop (fun r mm => applyRun (buildSamples o p r active 0) mm) start k m) =
          sumWins m + k ∧
      mapKeys (simLoop (fun r mm => applyRun (buildSamples o p r active 0) mm) start k m) =
          mapKeys m := by
  intro k
  induction k with
  | zero => intro start m _; exact ⟨by simp [simLoop], rfl⟩
  | succ n ih =>
    intro start m hkeys
    have hids := buildSamples_ids o p start active 0
    have hsne : buildSamples o p start active 0 ≠ [] := by
      intro hh
      apply hne
      have := congrArg (List.length) hids
      rw [hh] at this
      simpa using (List.length_eq_zero.mp (by simpa using this.symm))
    have hfound : ∀ s ∈ buildSamples o p start active 0, (mapGet m s.id).isSome := by
      intro s hsmem
      apply mem_mapKeys_isSome
      rw [hkeys, ← hids]
      exact List.mem_map_of_mem (fun x => x.id) hsmem
    have hstep : sumWins (applyRun (buildSamples o p start active 0) m) = sumWins m + 1 :=
      sumWins_applyRun _ m hsne hfound
    have hstepk : mapKeys (applyRun (buildSamples o p start active 0) m) = mapKeys m :=
      mapKeys_applyRun _ m
    have ihh := ih (start + 1) (applyRun (buildSamples o p start active 0) m)
      (by rw [hstepk, hkeys])
    refine ⟨?_, ?_⟩
    · calc sumWins (simLoop _ start (n + 1) m)
          = sumWins (simLoop (fun r mm => applyRun (buildSamples o p r active 0) mm)
              (start + 1) n (applyRun (buildSamples o p start active 0) m)) := rfl
        _ = sumWins (applyRun (buildSamples o p start active 0) m) + n := ihh.1
        _ = sumWins m + (n + 1) := by omega
    · calc mapKeys (simLoop _ start (n + 1) m)
          = mapKeys (simLoop (fun r mm => applyRun (buildSamples o p r active 0) mm)
              (start + 1) n (applyRun (buildSamples o p start active 0) m)) := rfl
        _ = mapKeys (applyRun (buildSamples o p start active 0) m) := ihh.2
        _ = mapKeys m := hstepk

theorem readback (l : List DriverSimulationInput) :
    ∀ (m : StatsMap), mapKeys m = l.map (fun d => d.id) →
      (l.map (fun d => d.id)).Nodup →
      l.map (fun d => (mapGet m d.id).getD initStats) = m.map Prod.snd := by
  induction l with
  | nil =>
    intro m hk _
    have : m = [] := by
      cases m with
      | nil => rfl
      | cons e rest => simp [mapKeys] at hk
    simp [this]
  | cons d rest ih =>
    intro m hk hnd
    cases m with
    | nil => simp [mapKeys] at hk
    | cons e m' =>
      obtain ⟨ke, ve⟩ := e
      have hke : ke = d.id := by
        simpa [mapKeys] using congrArg (fun l => l.head?) hk
      have hk' : mapKeys m' = rest.map (fun x => x.id) := by
        simpa [mapKeys] using congrArg (fun l => l.tail) hk
      have hnd' : (rest.map (fun x => x.id)).Nodup := by
        simpa using hnd.of_cons
      have hhead : mapGet ((ke, ve) :: m') d.id = some ve := by
        simp [mapGet, hke]
      have htail : rest.map (fun x => (mapGet ((ke, ve) :: m') x.id).getD initStats) =
          rest.map (fun x => (mapGet m' x.id).getD initStats) := by
        apply List.map_congr_left
        intro x hx
        have hxne : ke ≠ x.id := by
          rw [hke]
          intro hh
          have hdmem : d.id ∈ rest.map (fun y => y.id) := by
            exact hh ▸ List.mem_map_of_mem (fun y => y.id) hx
          exact (List.nodup_cons.mp (by simpa using hnd)).1 hdmem
        simp [mapGet, hxne]
      simp only [List.map_cons, hhead, Option.getD_some, htail]
      rw [ih m' hk' hnd']

theorem sum_map_winDiv (l : List AggregatedStats) (r : ℚ) :
    (l.map (fun st => (st.wins : ℚ) / r)).sum =
      ((l.map (fun st => st.wins)).sum : ℚ) / r := by
  induction l with
  | nil => simp
  | cons st rest ih =>
    simp only [List.map_cons, List.sum_cons, ih]
    ring

/-! Position-assignment lemmas. -/

theorem walkPositions_spec (ss : List RaceSample) :
    ∀ (pos : ℤ) (m : StatsMap), (∀ s ∈ ss, (mapGet m s.id).isSome) →
      (walkPositions ss pos m).map Prod.snd = intRange pos ss.length ∧
      (walkPositions ss pos m).map Prod.fst = ss.map (fun s => s.id) := by
  induction ss with
  | nil => intro pos m _; simp [walkPositions, intRange]
  | cons s rest ih =>
    intro pos m hf
    rcases Option.isSome_iff_exists.mp (hf s (by simp)) with ⟨v, hv⟩
    have hf' : ∀ x ∈ rest,
        (mapGet (mapUpdate m s.id (statStep pos s.didFinish)) x.id).isSome := by
      intro x hx
      rw [mapGet_mapUpdate_isSome]
      exact hf x (by simp [hx])
    have hrest := ih (pos + 1) _ hf'
    simp only [walkPositions, hv]
    constructor
    · simp [intRange, hrest.1]
    · simp [hrest.2]

/-! Rounding lemmas for the qualifying factor. -/

theorem floor_one_half : ⌊(1 : ℚ)/2⌋ = 0 := by
  rw [Int.floor_eq_zero_iff]
  constructor <;> norm_num

theorem jsRound_intCast (k : ℤ) : jsRound ((k : ℚ)) = k := by
  unfold jsRound
  rw [add_comm, Int.floor_add_int, floor_one_half]
  omega

/-! Claim theorems. -/

/-- C1: for driver lists with the same ordered active set, under the same
context and the same seed-determined draw oracle, two invocations of the
engine produce identical results arrays; the timestamp id (the now
argument) does not influence the results. -/
theorem claimC1_deterministic_results (o : DrawOracle) (n1 n2 : ℤ)
    (d1 d2 : List DriverSimulationInput) (c : RaceContext)
    (h : activeOf d1 = activeOf d2) :
    (runPrediction o n1 d1 c).results = (runPrediction o n2 d2 c).results := by
  rw [runPrediction_results, runPrediction_results, h]

/-- Witness for C1 at a concrete input: an inactive third driver and a
different timestamp leave the results array unchanged. -/
theorem claimC1_witness :
    activeOf [drvA, drvB, drvC] = activeOf [drvA, drvB] ∧
    (runPrediction oCE 0 [drvA, drvB, drvC] ctxCE).results =
      (runPrediction oCE 987654321 [drvA, drvB] ctxCE).results :=
  ⟨by decide, claimC1_deterministic_results oCE 0 987654321 [drvA, drvB, drvC]
    [drvA, drvB] ctxCE (by decide)⟩

/-- C2: for every input with at least two active drivers whose ids are
distinct (the data-model identity invariant), the win probabilities of
the returned summary sum to exactly 1: every run awards position 1 to
exactly one driver, winProbability is wins divided by runs, and the
arithmetic here is exact, so the floating tolerance of the claim is met
exactly. -/
theorem claimC2_win_probability_simplex (o : DrawOracle) (now : ℤ)
    (drivers : List DriverSimulationInput) (c : RaceContext)
    (h2 : 2 ≤ (activeOf drivers).length)
    (hnd : ((activeOf drivers).map (fun d => d.id)).Nodup) :
    ((runPrediction o now drivers c).results.map (fun r => r.winProbability)).sum = 1 := by
  have hnlt : ¬ (activeOf drivers).length < 2 := by omega
  rw [runPrediction_results, if_neg hnlt]
  have hne : activeOf drivers ≠ [] := by
    intro hh
    rw [hh] at h2
    simp at h2
  simp only [engineResults]
  set runs := clampedRuns c with hruns
  set p := mkParams (activeOf drivers) c with hp
  set stats := simLoop (fun r m => applyRun (buildSamples o p r (activeOf drivers) 0) m)
    0 runs (initStatsMap (activeOf drivers)) with hstats
  have hkeys0 := initStatsMap_keys (activeOf drivers) hnd
  have hinv := simLoop_engine_invariant o p (activeOf drivers) hne runs 0
    (initStatsMap (activeOf drivers)) hkeys0
  have hkeys : mapKeys stats = (activeOf drivers).map (fun d => d.id) := by
    rw [hstats]
    exact hinv.2.trans hkeys0
  have hperm := (jsStableSort_perm resultLE
    ((activeOf drivers).map (fun d => mkResult runs d ((mapGet stats d.id).getD initStats)))).map
    (fun r => r.winProbability)
  rw [hperm.sum_eq, List.map_map]
  have hfun : ((fun r : DriverSimulationResult => r.winProbability) ∘
      (fun d => mkResult runs d ((mapGet stats d.id).getD initStats))) =
      (fun st : AggregatedStats => (st.wins : ℚ) / (runs : ℚ)) ∘
      (fun d => (mapGet stats d.id).getD initStats) := rfl
  rw [hfun, ← List.map_map, readback (activeOf drivers) stats hkeys hnd, sum_map_winDiv]
  have hw : sumWins stats = runs := by
    have hsum : sumWins stats = sumWins (initStatsMap (activeOf drivers)) + runs := by
      rw [hstats]
      exact hinv.1
    rw [sumWins_initStatsMap] at hsum
    omega
  have hcast : (List.map (fun st : AggregatedStats => ((st.wins : ℕ) : ℚ))
      (stats.map Prod.snd)).sum = ((sumWins stats : ℕ) : ℚ) := by
    unfold sumWins
    rw [Nat.cast_list_sum, List.map_map, List.map_map]
    rfl
  rw [hcast, hw]
  have hr : ((runs : ℕ) : ℚ) ≠ 0 := by
    have h500 := clampedRuns_pos c
    have : (runs : ℕ) ≠ 0 := by omega
    exact_mod_cast Nat.cast_ne_zero.mpr this
  exact div_self hr

/-- Witness for C2 at the two-driver scenario. -/
theorem claimC2_witness :
    2 ≤ (activeOf [drvA, drvB]).length ∧
    ((activeOf [drvA, drvB]).map (fun d => d.id)).Nodup ∧
    (((runPrediction oCE 0 [drvA, drvB] ctxCE).results.map
      (fun r => r.winProbability)).sum = 1) :=
  ⟨by decide, by decide,
    claimC2_win_probability_simplex oCE 0 [drvA, drvB] ctxCE (by decide) (by decide)⟩

/-- C5 counterexample: the claim states that the reliability uniform is
drawn before the noise draw; in prediction.ts randomNormal is called
first (consuming the uniforms at tape positions 0 and 1) and the
reliability check consumes the uniform at position 2, and for seed 42 the
value at position 2 differs from the value at position 0, so the
reliability draw is not the first uniform. -/
theorem claimC5_counterexample :
    driverDrawsPT (mbTape 42) 0 1 =
      some ⟨mbTape 42 0, mbTape 42 1, mbTape 42 2, 3⟩ ∧
    mbTape 42 2 ≠ mbTape 42 0 :=
  ⟨driverDrawsPT_spec (mbTape 42) 0 0 mbTape_42_0_ne mbTape_42_1_ne,
    mbTape_42_2_ne_0th⟩

/-- C5 amended: per driver, in driver index order, the engine consumes
the two Box-Muller uniforms of the noise draw first (retrying zeros) and
then one reliability uniform; so the noise draw precedes the reliability
draw, the opposite of the claimed order. -/
theorem claimC5_noise_then_reliability (tape : Nat → ℚ) (i fuel : Nat)
    (h0 : tape i ≠ 0) (h1 : tape (i + 1) ≠ 0) :
    driverDrawsPT tape i (fuel + 1) =
      some ⟨tape i, tape (i + 1), tape (i + 2), i + 3⟩ :=
  driverDrawsPT_spec tape i fuel h0 h1

/-- Witness for the amended C5 on the mulberry32 tape of seed 42. -/
theorem claimC5_witness :
    mbTape 42 0 ≠ 0 ∧ mbTape 42 1 ≠ 0 ∧
    driverDrawsPT (mbTape 42) 0 3 =
      some ⟨mbTape 42 0, mbTape 42 1, mbTape 42 2, 3⟩ :=
  ⟨mbTape_42_0_ne, mbTape_42_1_ne,
    claimC5_noise_then_reliability (mbTape 42) 0 2 mbTape_42_0_ne mbTape_42_1_ne⟩

/-- C6: the main engine computes the claimed amplifier, but the optimized
engine omits the safety-car contribution; at a context with a high
safety-car profile (dry weather, low tyre stress) the main engine
computes 1.02 while runPredictionOptimized computes 1. -/
theorem claimC6_optimized_amplifier_divergence :
    reliabilityAmplifier
      { trackProfile := .balanced, weather := .dry, tyreStress := .low,
        safetyCar := .high, runs := 3000, randomness := 65/100, seed := none } = 51/50 ∧
    reliabilityAmplifierOptimized
      { trackProfile := .balanced, weather := .dry, tyreStress := .low,
        safetyCar := .high, runs := 3000, randomness := 65/100, seed := none } = 1 ∧
    (51/50 : ℚ) ≠ 1 := by
  refine ⟨?_, ?_, by norm_num⟩
  · unfold reliabilityAmplifier
    rw [if_neg (by decide), if_neg (by decide), if_pos (by decide)]
    norm_num
  · unfold reliabilityAmplifierOptimized
    rw [if_neg (by decide), if_neg (by decide)]
    norm_num

/-- C7: without an explicit integer seed, OptimizedRandom stores the
fractional Math.random() value; the first bitwise operation coerces it to
int32 0, the xorshift fixes 0, so next() returns 0 forever and the
while (u === 0) loop of normal() never terminates for any amount of
fuel. -/
theorem claimC7_unseeded_generator_degenerates (s : ℚ) (h0 : 0 ≤ s) (h1 : s < 1) :
    (∀ k, orStream s k = 0) ∧ (∀ fuel, orFindNonzero s fuel = none) := by
  constructor
  · intro k
    cases k with
    | zero => simp [orStream, orNext_of_frac h0 h1]
    | succ n =>
      rw [orStream, orNext_of_frac h0 h1]
      exact orStream_zero_state n
  · intro fuel
    cases fuel with
    | zero => rfl
    | succ n =>
      rw [orFindNonzero, orNext_of_frac h0 h1]
      simpa using orFindNonzero_zero_state n

/-- Witness for C7 at the concrete unseeded value 0.5. -/
theorem claimC7_witness :
    0 ≤ (1/2 : ℚ) ∧ (1/2 : ℚ) < 1 ∧ orStream (1/2) 3 = 0 ∧
    orFindNonzero (1/2) 2 = none :=
  ⟨by norm_num, by norm_num,
    (claimC7_unseeded_generator_degenerates (1/2) (by norm_num) (by norm_num)).1 3,
    (claimC7_unseeded_generator_degenerates (1/2) (by norm_num) (by norm_num)).2 2⟩

/-- C8 counterexample: with a single active driver the engine does not
raise; it returns a summary (with zero runs, an empty results array and a
null predicted winner), so a summary is produced for such input,
contradicting the claim. -/
theorem claimC8_counterexample :
    runPrediction oCE 0 [drvA] ctxCE =
      { id := 0, runs := 0, context := ctxCE, results := [],
        predictedWinner := none, predictedPodium := [] } := by
  rfl

/-- C8 amended: whenever fewer than two active drivers are supplied, the
engine returns early with the empty summary (runs 0, empty results, null
winner) and never reaches the simulation loop; no exception is raised. -/
theorem claimC8_empty_summary (o : DrawOracle) (now : ℤ)
    (drivers : List DriverSimulationInput) (c : RaceContext)
    (h : (activeOf drivers).length < 2) :
    runPrediction o now drivers c =
      { id := now, runs := 0, context := c, results := [],
        predictedWinner := none, predictedPodium := [] } := by
  simp only [runPrediction]
  rw [if_pos h]

/-- Witness for the amended C8: the empty driver list. -/
theorem claimC8_witness :
    (activeOf ([] : List DriverSimulationInput)).length < 2 ∧
    runPrediction oCE 7 [] ctxCE =
      { id := 7, runs := 0, context := ctxCE, results := [],
        predictedWinner := none, predictedPodium := [] } :=
  ⟨by decide, claimC8_empty_summary oCE 7 [] ctxCE (by decide)⟩

/-- C9 counterexample: for an enabled global qualifying factor of
magnitude 0.25 on a driver at grid 2, the store computes
max(1, 2 + round(-0.5)) = 2 (ECMAScript rounds -0.5 to 0), while the
claimed formula max(1, 2 - round(0.5)) gives 1; the two disagree. -/
theorem claimC9_counterexample :
    applyQualRel [qfQuarter] [drvB] = [{ drvB with gridPosition := 2 }] ∧
    specQualifyingGrid (1/4) drvB.gridPosition = 1 ∧
    ((2 : ℚ) ≠ 1) := by
  have hr1 : jsRound (-(1/2) : ℚ) = 0 := by
    unfold jsRound
    norm_num
  have hr2 : jsRound (2 * (1/4 : ℚ)) = 1 := by
    unfold jsRound
    norm_num
  refine ⟨?_, ?_, by norm_num⟩
  · simp only [applyQualRel, qfQuarter, List.filter, List.foldl_cons, List.foldl_nil,
      List.map_cons, List.map_nil, applyFactor, targetMatches]
    norm_num [drvB, hr1]
  · simp only [specQualifyingGrid, hr2, drvB]
    norm_num [max_def]

/-- C9 amended: a matched enabled qualifying factor sets
gridPosition to max(1, gridPosition + round(-2 * magnitude)) with
ECMAScript rounding; whenever 2 * magnitude is an integer this equals the
claimed max(1, gridPosition - round(2 * magnitude)); in particular, with
magnitude +1 on a driver starting at grid 2, the applied grid position
is 1. -/
theorem claimC9_qualifying_grid_update (f : NewsFactor) (d : DriverSimulationInput)
    (hen : f.enabled = true) (him : f.impactType = .qualifying)
    (hm : targetMatches f.targets d = true) :
    applyQualRel [f] [d] =
      [{ d with gridPosition := max 1 (d.gridPosition + (jsRound (f.magnitude * (-2)) : ℚ)) }] ∧
    ((∃ k : ℤ, 2 * f.magnitude = (k : ℚ)) →
      max 1 (d.gridPosition + (jsRound (f.magnitude * (-2)) : ℚ)) =
        specQualifyingGrid f.magnitude d.gridPosition) ∧
    (f.magnitude = 1 → d.gridPosition = 2 →
      applyQualRel [f] [d] = [{ d with gridPosition := 1 }]) := by
  have happly : applyQualRel [f] [d] =
      [{ d with gridPosition := max 1 (d.gridPosition + (jsRound (f.magnitude * (-2)) : ℚ)) }] := by
    simp only [applyQualRel, List.filter, hen, List.foldl_cons, List.foldl_nil,
      List.map_cons, List.map_nil, applyFactor]
    rw [if_pos hm, him]
  refine ⟨happly, ?_, ?_⟩
  · rintro ⟨k, hk⟩
    have hneg : f.magnitude * (-2) = ((-k : ℤ) : ℚ) := by
      push_cast
      linarith
    have h2m : (2 : ℚ) * f.magnitude = ((k : ℤ) : ℚ) := by linarith
    unfold specQualifyingGrid
    rw [hneg, h2m, jsRound_intCast, jsRound_intCast]
    congr 1
    push_cast
    ring
  · intro hmag hgrid
    rw [happly]
    have : max 1 (d.gridPosition + (jsRound (f.magnitude * (-2)) : ℚ)) = 1 := by
      rw [hmag, hgrid]
      have : jsRound ((1 : ℚ) * (-2)) = -2 := by
        have : ((1 : ℚ)) * (-2) = ((-2 : ℤ) : ℚ) := by norm_num
        rw [this, jsRound_intCast]
      rw [this]
      norm_num
    rw [this]

/-- Witness for the amended C9: a global qualifying factor of magnitude 1
on a driver at grid 2 yields grid 1. -/
theorem claimC9_witness :
    qfOne.enabled = true ∧
    targetMatches qfOne.targets drvB = true ∧
    applyQualRel [qfOne] [drvB] = [{ drvB with gridPosition := 1 }] :=
  ⟨rfl, by decide,
    (claimC9_qualifying_grid_update qfOne drvB rfl rfl (by decide)).2.2 rfl (by decide)⟩

/-- C10: the summary echoes the caller's context object unmodified (the
clamped runs and randomness are local to the engine and never written
back), while the summary's top-level runs field is the clamped value that
was actually simulated; for an out-of-range submission the two differ. -/
theorem claimC10_context_echo (o : DrawOracle) (now : ℤ)
    (drivers : List DriverSimulationInput) (c : RaceContext)
    (h2 : 2 ≤ (activeOf drivers).length) :
    (runPrediction o now drivers c).context = c ∧
    (runPrediction o now drivers c).runs = clampZ (jsRound c.runs) 500 20000 := by
  refine ⟨runPrediction_context o now drivers c, ?_⟩
  rw [runPrediction_runs, if_neg (by omega), clampedRuns_cast]

/-! Evaluation of the two-driver scenario.  The oracle is constant in the
run index, so every run produces the same samples; the statistics
therefore evolve linearly and are obtained by induction rather than by
unrolling the 500 iterations. -/

theorem samplesCE_eq (r : Nat) :
    buildSamples oCE (mkParams [drvA, drvB] ctxCE) r [drvA, drvB] 0 = [sCEa, sCEb] := by
  simp only [buildSamples, mkParams, buildNormalisers, rangeOf, normalise, paceScore,
    clampQ, baseReliability, reliabilityAmplifier, trackWeights, weatherWeights,
    tyreStressFactor, safetyCarFactor, oCE, drvA, drvB, ctxCE, sCEa, sCEb,
    List.map_cons, List.map_nil, List.foldl_cons, List.foldl_nil]
  norm_num

theorem sortedCE : jsStableSort sampleLE [sCEa, sCEb] = [sCEa, sCEb] := by
  simp only [jsStableSort, stableInsert, sampleLE, sCEa, sCEb]
  norm_num

theorem baseCE : applyRun [sCEa, sCEb] (initStatsMap [drvA, drvB]) = statsCE 0 := by
  have hab : ¬ ("a" : String) = "b" := by decide
  have hba : ¬ ("b" : String) = "a" := by decide
  unfold applyRun
  rw [sortedCE]
  simp only [initStatsMap, List.foldl_cons, List.foldl_nil, mapSet, drvA, drvB]
  norm_num [walk, mapGet, mapUpdate, statStep, statsCE, initStats, POINTS_TABLE,
    sCEa, sCEb, hab, hba]

theorem stepCE (k : ℕ) : applyRun [sCEa, sCEb] (statsCE k) = statsCE (k + 1) := by
  have hab : ¬ ("a" : String) = "b" := by decide
  have hba : ¬ ("b" : String) = "a" := by decide
  unfold applyRun
  rw [sortedCE]
  simp [walk, mapGet, mapUpdate, statStep, statsCE, POINTS_TABLE, sCEa, sCEb, hab, hba]
  omega

theorem simLoop_const (f : Nat → StatsMap → StatsMap) (g : StatsMap → StatsMap)
    (h : ∀ i m, f i m = g m) :
    ∀ (k start : Nat) (m : StatsMap), simLoop f start k m = iterN g k m := by
  intro k
  induction k with
  | zero => intro start m; rfl
  | succ n ih =>
    intro start m
    show simLoop f (start + 1) n (f start m) = iterN g n (g m)
    rw [h start m]
    exact ih (start + 1) (g m)

theorem iterN_statsCE : ∀ (k j : ℕ), iterN (applyRun [sCEa, sCEb]) k (statsCE j) = statsCE (j + k) := by
  intro k
  induction k with
  | zero => intro j; simp [iterN]
  | succ n ih =>
    intro j
    show iterN (applyRun [sCEa, sCEb]) n (applyRun [sCEa, sCEb] (statsCE j)) = _
    rw [stepCE j, ih (j + 1)]
    congr 1
    omega

theorem iterN_succ (g : StatsMap → StatsMap) (k : ℕ) (m : StatsMap) :
    iterN g (k + 1) m = iterN g k (g m) := rfl

theorem statsCE_final :
    simLoop (fun r m => applyRun (buildSamples oCE (mkParams [drvA, drvB] ctxCE) r [drvA, drvB] 0) m)
      0 500 (initStatsMap [drvA, drvB]) = statsCE 499 := by
  rw [simLoop_const _ (applyRun [sCEa, sCEb]) (fun i m => by rw [samplesCE_eq i]) 500 0]
  rw [show (500 : ℕ) = 499 + 1 from rfl, iterN_succ, baseCE, iterN_statsCE 499 0]

theorem clampedRunsCE : clampedRuns ctxCE = 500 := by
  have hfloor : jsRound (500 : ℚ) = 500 := by
    have : ((500 : ℤ) : ℚ) = (500 : ℚ) := by norm_num
    rw [← this, jsRound_intCast]
  unfold clampedRuns clampZ
  rw [show ctxCE.runs = (500 : ℚ) from rfl, hfloor]
  rfl

theorem mkResultCE_a :
    mkResult 500 drvA ((mapGet (statsCE 499) "a").getD initStats) = resACE := by
  norm_num [mkResult, mapGet, statsCE, drvA, resACE, clampQ]

theorem mkResultCE_b :
    mkResult 500 drvB ((mapGet (statsCE 499) "b").getD initStats) = resBCE := by
  have hab : ¬ ("a" : String) = "b" := by decide
  norm_num [mkResult, mapGet, statsCE, drvB, resBCE, clampQ, hab]

theorem engineResultsCE : engineResults oCE [drvA, drvB] ctxCE = [resACE, resBCE] := by
  simp only [engineResults, clampedRunsCE, statsCE_final, List.map_cons, List.map_nil,
    show drvA.id = "a" from rfl, show drvB.id = "b" from rfl, mkResultCE_a, mkResultCE_b]
  simp only [jsStableSort, stableInsert, resultLE, resACE, resBCE]
  norm_num

theorem runPredictionCE_results :
    (runPrediction oCE 0 [drvA, drvB] ctxCE).results = [resACE, resBCE] := by
  rw [runPrediction_results, if_neg (by decide), show activeOf [drvA, drvB] = [drvA, drvB] from by decide]
  exact engineResultsCE

/-- Witness for C10 at an out-of-range submission (runs = 100): the
echoed context still carries 100 while the summary's runs field is the
clamped 500. -/
theorem claimC10_witness :
    2 ≤ (activeOf [drvA, drvB]).length ∧
    (runPrediction oCE 0 [drvA, drvB]
      { ctxCE with runs := 100 }).context = { ctxCE with runs := 100 } ∧
    (runPrediction oCE 0 [drvA, drvB] { ctxCE with runs := 100 }).runs =
      clampZ (jsRound (100 : ℚ)) 500 20000 := by
  have h := claimC10_context_echo oCE 0 [drvA, drvB] { ctxCE with runs := 100 } (by decide)
  exact ⟨by decide, h.1, h.2⟩

/-! DNF counting through the run loop: for a driver with a unique id,
the accumulated dnfs tally is the number of runs whose reliability
uniform fails the check, independent of the sorting. -/

theorem mapGet_eq_some_mem (m : StatsMap) (k : String) (v : AggregatedStats)
    (h : mapGet m k = some v) : (k, v) ∈ m := by
  induction m with
  | nil => simp [mapGet] at h
  | cons e rest ih =>
    obtain ⟨ke, ve⟩ := e
    by_cases hk : ke = k
    · subst hk
      have hv : some ve = some v := by simpa [mapGet] using h
      injection hv with hv
      subst hv
      simp
    · simp only [mapGet, hk, if_false] at h
      simp [ih h]

theorem dnfsOf_initStatsMap (l : List DriverSimulationInput) (k : String) :
    dnfsOf (initStatsMap l) k = 0 := by
  unfold dnfsOf
  cases hm : mapGet (initStatsMap l) k with
  | none => simp [initStats]
  | some v =>
    have hv : v = initStats :=
      initStatsMap_values l (k, v) (mapGet_eq_some_mem _ _ _ hm)
    simp [hv, initStats]

theorem dnfsOf_mapUpdate (m : StatsMap) (kup k : String) (pos : ℤ) (fin : Bool)
    (h : (mapGet m kup).isSome) :
    dnfsOf (mapUpdate m kup (statStep pos fin)) k =
      dnfsOf m k + (if kup = k ∧ fin = false then 1 else 0) := by
  unfold dnfsOf
  rw [mapGet_mapUpdate]
  by_cases hk : kup = k
  · subst hk
    rcases Option.isSome_iff_exists.mp h with ⟨v, hv⟩
    rw [hv]
    have : (statStep pos fin v).dnfs = v.dnfs + (if fin then 0 else 1) := rfl
    cases fin <;> simp [this]
  · simp [hk]

theorem dnfs_walk (k : String) (ss : List RaceSample) :
    ∀ (pos : ℤ) (m : StatsMap), (∀ s ∈ ss, (mapGet m s.id).isSome) →
      dnfsOf (walk ss pos m) k =
        dnfsOf m k + ss.countP (fun s => s.id == k && !s.didFinish) := by
  induction ss with
  | nil => intro pos m _; simp [walk]
  | cons s rest ih =>
    intro pos m hf
    have hs : (mapGet m s.id).isSome := hf s (by simp)
    rcases Option.isSome_iff_exists.mp hs with ⟨v, hv⟩
    simp only [walk, hv]
    have hf' : ∀ x ∈ rest,
        (mapGet (mapUpdate m s.id (statStep pos s.didFinish)) x.id).isSome := by
      intro x hx
      rw [mapGet_mapUpdate_isSome]
      exact hf x (by simp [hx])
    rw [ih (pos + 1) _ hf', dnfsOf_mapUpdate m s.id k pos s.didFinish hs,
      List.countP_cons]
    have hifs : (if s.id = k ∧ s.didFinish = false then 1 else 0) =
        (if (s.id == k && !s.didFinish) = true then 1 else 0) := by
      by_cases h1 : s.id = k <;> cases hfin : s.didFinish <;> simp [h1, hfin]
    omega

theorem dnfs_applyRun (k : String) (samples : List RaceSample) (m : StatsMap)
    (hf : ∀ s ∈ samples, (mapGet m s.id).isSome) :
    dnfsOf (applyRun samples m) k =
      dnfsOf m k + samples.countP (fun s => s.id == k && !s.didFinish) := by
  have hperm := jsStableSort_perm sampleLE samples
  have hf' : ∀ s ∈ jsStableSort sampleLE samples, (mapGet m s.id).isSome := fun s hs =>
    hf s (hperm.mem_iff.mp hs)
  unfold applyRun
  rw [dnfs_walk k _ 1 m hf', hperm.countP_eq]

theorem countP_buildSamples_zero (o : DrawOracle) (p : EngineParams) (r : Nat)
    (k : String) :
    ∀ (l : List DriverSimulationInput) (j : Nat), k ∉ l.map (fun x => x.id) →
      (buildSamples o p r l j).countP (fun s => s.id == k && !s.didFinish) = 0 := by
  intro l
  induction l with
  | nil => intro j _; simp [buildSamples]
  | cons e rest ih =>
    intro j hk
    have hke : ¬ (e.id = k) := by
      intro hh
      exact hk (by simp [hh])
    have hkr : k ∉ rest.map (fun x => x.id) := by
      intro hh
      exact hk (by simp [hh])
    simp only [buildSamples, List.countP_cons, ih (j + 1) hkr]
    simp [hke]

theorem countP_buildSamples (o : DrawOracle) (p : EngineParams) (r : Nat)
    (d : DriverSimulationInput) (l₂ : List DriverSimulationInput)
    (h₂ : d.id ∉ l₂.map (fun x => x.id)) :
    ∀ (l₁ : List DriverSimulationInput) (j : Nat), d.id ∉ l₁.map (fun x => x.id) →
      (buildSamples o p r (l₁ ++ d :: l₂) j).countP (fun s => s.id == d.id && !s.didFinish) =
        if o.rel r (j + l₁.length) < baseReliability p.amp d.dnfRate then 0 else 1 := by
  intro l₁
  induction l₁ with
  | nil =>
    intro j _
    simp only [List.nil_append, buildSamples, List.countP_cons,
      countP_buildSamples_zero o p r d.id l₂ (j + 1) h₂]
    by_cases hrel : o.rel r j < baseReliability p.amp d.dnfRate <;>
      simp [hrel]
  | cons e rest ih =>
    intro j hk
    have hke : ¬ (e.id = d.id) := by
      intro hh
      exact hk (by simp [hh])
    have hkr : d.id ∉ rest.map (fun x => x.id) := by
      intro hh
      exact hk (by simp [hh])
    simp only [List.cons_append, buildSamples, List.countP_cons, List.append_eq]
    rw [ih (j + 1) hkr]
    have harg : j + 1 + rest.length = j + (e :: rest).length := by
      simp
      omega
    rw [harg]
    simp [hke]

theorem dnfs_simLoop_engine (o : DrawOracle) (p : EngineParams)
    (l₁ l₂ : List DriverSimulationInput) (d : DriverSimulationInput)
    (h₁ : d.id ∉ l₁.map (fun x => x.id)) (h₂ : d.id ∉ l₂.map (fun x => x.id)) :
    ∀ (k start : Nat) (m : StatsMap),
      mapKeys m = (l₁ ++ d :: l₂).map (fun x => x.id) →
      dnfsOf (simLoop (fun r mm => applyRun (buildSamples o p r (l₁ ++ d :: l₂) 0) mm)
          start k m) d.id =
        dnfsOf m d.id + (List.range' start k).countP
          (fun r => !(decide (o.rel r l₁.length < baseReliability p.amp d.dnfRate))) := by
  intro k
  induction k with
  | zero => intro start m _; simp [simLoop]
  | succ n ih =>
    intro start m hkeys
    have hids := buildSamples_ids o p start (l₁ ++ d :: l₂) 0
    have hfound : ∀ s ∈ buildSamples o p start (l₁ ++ d :: l₂) 0,
        (mapGet m s.id).isSome := by
      intro s hsmem
      apply mem_mapKeys_isSome
      rw [hkeys, ← hids]
      exact List.mem_map_of_mem (fun x => x.id) hsmem
    have hstep : dnfsOf (applyRun (buildSamples o p start (l₁ ++ d :: l₂) 0) m) d.id =
        dnfsOf m d.id +
          if o.rel start (0 + l₁.length) < baseReliability p.amp d.dnfRate then 0 else 1 := by
      rw [dnfs_applyRun d.id _ m hfound, countP_buildSamples o p start d l₂ h₂ l₁ 0 h₁]
    have hstepk : mapKeys (applyRun (buildSamples o p start (l₁ ++ d :: l₂) 0) m) =
        mapKeys m := mapKeys_applyRun _ m
    have ihh := ih (start + 1) (applyRun (buildSamples o p start (l₁ ++ d :: l₂) 0) m)
      (by rw [hstepk, hkeys])
    calc dnfsOf (simLoop _ start (n + 1) m) d.id
        = dnfsOf (simLoop (fun r mm => applyRun (buildSamples o p r (l₁ ++ d :: l₂) 0) mm)
            (start + 1) n (applyRun (buildSamples o p start (l₁ ++ d :: l₂) 0) m)) d.id := rfl
      _ = dnfsOf m d.id + ((if o.rel start (0 + l₁.length) < baseReliability p.amp d.dnfRate
              then 0 else 1) +
            (List.range' (start + 1) n).countP
              (fun r => !(decide (o.rel r l₁.length < baseReliability p.amp d.dnfRate)))) := by
          rw [ihh, hstep]
          omega
      _ = dnfsOf m d.id + (List.range' start (n + 1)).countP
            (fun r => !(decide (o.rel r l₁.length < baseReliability p.amp d.dnfRate))) := by
          rw [List.range'_succ, List.countP_cons]
          by_cases hrel : o.rel start l₁.length < baseReliability p.amp d.dnfRate <;>
            simp [hrel] <;> omega

/-- C3 counterexample: driver b has dnfRate 0 and the context has dry
weather, low tyre stress and a low safety-car profile (no
reliability-reducing settings), yet the summary assigns driver b
dnfProbability 1 rather than the claimed 0: baseReliability is clamped
to 0.98, and the reliability uniform 0.99 (a value mulberry32 attains)
fails the check u < 0.98 in every run. -/
theorem claimC3_counterexample :
    drvB.dnfRate = 0 ∧
    ctxCE.weather ≠ .wet ∧ ctxCE.tyreStress ≠ .high ∧ ctxCE.safetyCar = .low ∧
    ((runPrediction oCE 0 [drvA, drvB] ctxCE).results.map
      (fun r => (r.id, r.dnfProbability))) = [("a", 0), ("b", 1)] ∧
    (1 : ℚ) ≠ 0 := by
  refine ⟨rfl, by decide, by decide, rfl, ?_, by norm_num⟩
  rw [runPredictionCE_results]
  simp [resACE, resBCE]

/-- C3 amended: for every input and every active driver d with
dnfRate 0 (located at index l1.length of the active list, ids distinct),
the engine clamps d's baseReliability to 0.98 - not 1, under every
context - and the summary row for d carries dnfProbability equal to the
exact fraction of the clamped runs whose reliability uniform for d is at
least 0.98; so dnfProbability is 0 only when every such draw is below
0.98, and it can be positive. -/
theorem claimC3_clamped_reliability (o : DrawOracle) (now : ℤ)
    (drivers : List DriverSimulationInput) (c : RaceContext)
    (l₁ l₂ : List DriverSimulationInput) (d : DriverSimulationInput)
    (hsplit : activeOf drivers = l₁ ++ d :: l₂)
    (hnd : ((activeOf drivers).map (fun x => x.id)).Nodup)
    (hdnf : d.dnfRate = 0) :
    baseReliability (reliabilityAmplifier c) d.dnfRate = 98/100 ∧
    ∀ res ∈ (runPrediction o now drivers c).results, res.id = d.id →
      res.dnfProbability =
        (((List.range' 0 (clampedRuns c)).countP
          (fun r => !(decide (o.rel r l₁.length < 98/100)))) : ℚ) /
          (clampedRuns c : ℚ) := by
  have hbase : baseReliability (reliabilityAmplifier c) d.dnfRate = 98/100 := by
    rw [hdnf]
    unfold baseReliability clampQ
    norm_num [max_def, min_def]
  refine ⟨hbase, ?_⟩
  intro res hres hid
  rw [runPrediction_results] at hres
  by_cases hlen : (activeOf drivers).length < 2
  · rw [if_pos hlen] at hres
    simp at hres
  · rw [if_neg hlen, hsplit] at hres
    have hnd' : ((l₁ ++ d :: l₂).map (fun x => x.id)).Nodup := by
      rw [← hsplit]
      exact hnd
    simp only [engineResults] at hres
    set runs := clampedRuns c with hruns
    set p := mkParams (l₁ ++ d :: l₂) c with hp
    set stats := simLoop (fun r m => applyRun (buildSamples o p r (l₁ ++ d :: l₂) 0) m)
      0 runs (initStatsMap (l₁ ++ d :: l₂)) with hstats
    have hres' := (jsStableSort_perm resultLE _).mem_iff.mp hres
    rcases List.mem_map.mp hres' with ⟨d', hd'mem, hd'eq⟩
    have hid' : d'.id = d.id := by
      rw [← hd'eq] at hid
      exact hid
    have hdmem : d ∈ l₁ ++ d :: l₂ := by simp
    have hd'd : d' = d := List.inj_on_of_nodup_map hnd' hd'mem hdmem hid'
    subst hd'd
    have hdP : res.dnfProbability = ((dnfsOf stats d'.id : ℕ) : ℚ) / ((runs : ℕ) : ℚ) := by
      rw [← hd'eq]
      rfl
    have hndl : (l₁.map (fun x => x.id) ++ d'.id :: l₂.map (fun x => x.id)).Nodup := by
      simpa using hnd'
    have h₁ : d'.id ∉ l₁.map (fun x => x.id) := by
      rcases List.nodup_append.mp hndl with ⟨_, _, hdisj⟩
      intro hmem
      exact hdisj hmem (by simp)
    have h₂ : d'.id ∉ l₂.map (fun x => x.id) := by
      rcases List.nodup_append.mp hndl with ⟨_, hcons, _⟩
      exact (List.nodup_cons.mp hcons).1
    have hkeys0 := initStatsMap_keys (l₁ ++ d' :: l₂) hnd'
    have hcount := dnfs_simLoop_engine o p l₁ l₂ d' h₁ h₂ runs 0
      (initStatsMap (l₁ ++ d' :: l₂)) hkeys0
    rw [dnfsOf_initStatsMap, ← hstats] at hcount
    have hflag : (fun r => !(decide (o.rel r l₁.length < baseReliability p.amp d'.dnfRate)))
        = (fun r => !(decide (o.rel r l₁.length < 98/100))) := by
      funext r
      have hampr : p.amp = reliabilityAmplifier c := rfl
      simp only [hampr, hbase]
    rw [hflag] at hcount
    rw [hdP, hcount]
    simp

/-- Witness for the amended C3 at the two-driver scenario: driver b sits
at index 1, its reliability draws are all 0.99, and the theorem yields
its dnfProbability as the DNF-draw fraction. -/
theorem claimC3_witness :
    activeOf [drvA, drvB] = [drvA] ++ drvB :: [] ∧
    ((activeOf [drvA, drvB]).map (fun x => x.id)).Nodup ∧
    drvB.dnfRate = 0 ∧
    baseReliability (reliabilityAmplifier ctxCE) drvB.dnfRate = 98/100 ∧
    resBCE.dnfProbability =
      (((List.range' 0 (clampedRuns ctxCE)).countP
        (fun r => !(decide (oCE.rel r ([drvA] : List DriverSimulationInput).length < 98/100)))) : ℚ) /
        (clampedRuns ctxCE : ℚ) := by
  have h := claimC3_clamped_reliability oCE 0 [drvA, drvB] ctxCE [drvA] [] drvB
    (by decide) (by decide) rfl
  refine ⟨by decide, by decide, rfl, h.1, ?_⟩
  apply h.2 resBCE ?_ rfl
  rw [runPredictionCE_results]
  simp

/-- C4 counterexample: in the scenario driver b does not finish any of
the 500 runs (dnfProbability 1) and the active set has 2 drivers, so the
claimed sentinel finishing position is 3; but the engine accumulates b's
actual sorted position 2 into averageFinish, which is 2, not 3. -/
theorem claimC4_counterexample :
    ((runPrediction oCE 0 [drvA, drvB] ctxCE).results.map
      (fun r => (r.id, r.averageFinish, r.dnfProbability))) =
      [("a", 1, 0), ("b", 2, 1)] ∧
    (activeOf [drvA, drvB]).length = 2 ∧
    ((2 : ℚ) ≠ 3) := by
  refine ⟨?_, by decide, by norm_num⟩
  rw [runPredictionCE_results]
  simp [resACE, resBCE]

/-- C4 amended: in every simulated run, with or without DNFs, the walk
over the score-sorted samples assigns exactly the consecutive positions
1..n: the recorded positions are the initial segment starting at 1 and
the ids receiving them are a permutation of the sample ids.  DNF drivers
receive their sorted position (no sentinel), and that position is what
the statistics accumulate. -/
theorem claimC4_positions_permutation (samples : List RaceSample) (m : StatsMap)
    (hf : ∀ s ∈ samples, (mapGet m s.id).isSome) :
    (walkPositions (jsStableSort sampleLE samples) 1 m).map Prod.snd =
      intRange 1 samples.length ∧
    ((walkPositions (jsStableSort sampleLE samples) 1 m).map Prod.fst).Perm
      (samples.map (fun s => s.id)) := by
  have hperm := jsStableSort_perm sampleLE samples
  have hf' : ∀ s ∈ jsStableSort sampleLE samples, (mapGet m s.id).isSome := fun s hs =>
    hf s (hperm.mem_iff.mp hs)
  have h := walkPositions_spec (jsStableSort sampleLE samples) 1 m hf'
  refine ⟨?_, ?_⟩
  · rw [h.1, hperm.length_eq]
  · rw [h.2]
    exact hperm.map _

/-- Witness for the amended C4 at the scenario samples and initial
statistics map. -/
theorem claimC4_witness :
    (∀ s ∈ [sCEa, sCEb], (mapGet (initStatsMap [drvA, drvB]) s.id).isSome) ∧
    ((walkPositions (jsStableSort sampleLE [sCEa, sCEb]) 1 (initStatsMap [drvA, drvB])).map
      Prod.snd = intRange 1 ([sCEa, sCEb] : List RaceSample).length) :=
  ⟨by decide,
    (claimC4_positions_permutation [sCEa, sCEb] (initStatsMap [drvA, drvB]) (by decide)).1⟩

end F1Nexus
